import Mathlib

set_option maxHeartbeats 1000000

/-
Verification of the JSON path-accessor/setter/merge/array engine of
drizzle-pg-utils (src/json). The drizzle sql tagged-template collaborator is
modelled shallowly: a compiled SQL fragment is the ordered list of its chunks,
where a chunk is literal SQL text, a bound parameter carrying its serialized
value, or an abstract external fragment (a column reference or caller-supplied
SQL expression) identified by a number. Interpolating a fragment into a
template splices its chunk list; the inlineParams call of drizzle turns a
string, boolean or numeric parameter into quoted or plain literal text.
-/

/-- One chunk of a compiled SQL fragment: literal text, a bound parameter
(carrying the text the driver would send), or an abstract external fragment
identified by a number. -/
inductive Chunk where
  | txt : String → Chunk
  | par : String → Chunk
  | atom : Nat → Chunk
deriving DecidableEq, Repr

/-- A compiled SQL fragment, as the ordered list of its chunks. -/
abbrev Frag := List Chunk

/-- A fragment holding one piece of literal SQL text. -/
def lit (x : String) : Frag := [Chunk.txt x]

/-- The sql.join primitive of drizzle: joins fragments with a separator
fragment between consecutive elements. -/
def joinSep (sep : Frag) : List Frag → Frag
  | [] => []
  | [f] => f
  | f :: rest => f ++ sep ++ joinSep sep rest

/-- Inlining of a string parameter, as done by the inlineParams call of
drizzle on a template holding one string: the value becomes a quoted SQL
string literal. -/
def inlineStr (p : String) : Frag := lit ("\x27" ++ p ++ "\x27")

/-- Inlining of a boolean parameter. -/
def inlineBool (b : Bool) : Frag := lit (cond b ("true") ("false"))

/-- Inlining of a numeric parameter. -/
def inlineInt (i : Int) : Frag := lit (toString i)

/-- Renders a fragment to SQL text, reading each abstract external fragment
from the environment and printing bound parameters in place. -/
def render (env : Nat → String) : Frag → String
  | [] => ""
  | Chunk.txt x :: rest => x ++ render env rest
  | Chunk.par x :: rest => x ++ render env rest
  | Chunk.atom n :: rest => env n ++ render env rest

/-- Number of occurrences of the abstract external fragment n in a fragment.
Used to state how many times a compiled fragment embeds its Source. -/
def countAtom (n : Nat) : Frag → Nat
  | [] => 0
  | Chunk.atom m :: rest => (if m = n then 1 else 0) + countAtom n rest
  | _ :: rest => countAtom n rest

/-- Number of chunks holding exactly the literal text x. Used to count how
many calls to a given native function a compiled fragment opens. -/
def countTxt (x : String) : Frag → Nat
  | [] => 0
  | Chunk.txt y :: rest => (if y = x then 1 else 0) + countTxt x rest
  | _ :: rest => countTxt x rest

/-- A host-language (JavaScript) value as accepted by the value builder and
the setter: the undefined sentinel, null, primitives, a pre-built SQL
fragment, an ordered array, or a keyed object given as its ordered list of
entries. Numbers are modelled as integers; the engine never computes with
them, it only serializes them. -/
inductive JSValue where
  | undef : JSValue
  | null : JSValue
  | boolean : Bool → JSValue
  | number : Int → JSValue
  | string : String → JSValue
  | sqlFrag : Frag → JSValue
  | array : List JSValue → JSValue
  | object : List (String × JSValue) → JSValue
deriving Repr

/-- The test val === undefined used by build.ts when filtering object
entries. -/
def isUndef : JSValue → Bool
  | JSValue.undef => true
  | _ => false

/-- The map step of build.ts on array elements: v === undefined is replaced
by null before processing. -/
def undefToNull : JSValue → JSValue
  | JSValue.undef => JSValue.null
  | v => v

/-- JSON.stringify of the host runtime, restricted to the values of JSValue.
Inside arrays undefined serializes as null; inside objects entries with an
undefined value are dropped. A pre-built SQL fragment never reaches this
function in the engine (the isSQLWrapper test catches it first), so that
branch returns the empty string. String escaping is not modelled: no claim
depends on the spelling of string contents. -/
def jsonStringify : JSValue → String
  | JSValue.undef => "undefined"
  | JSValue.null => "null"
  | JSValue.boolean b => cond b ("true") ("false")
  | JSValue.number i => toString i
  | JSValue.string s => "\x22" ++ s ++ "\x22"
  | JSValue.sqlFrag _ => ""
  | JSValue.array xs =>
      "[" ++ String.intercalate (",") (xs.attach.map (fun e => jsonStringify (undefToNull e.val))) ++ "]"
  | JSValue.object fs =>
      "\x7b" ++ String.intercalate (",")
        (((fs.filter (fun e => !(isUndef e.2))).attach).map
          (fun e => "\x22" ++ e.val.1 ++ "\x22:" ++ jsonStringify e.val.2)) ++ "\x7d"
termination_by v => sizeOf v
decreasing_by
  · have h1 := List.sizeOf_lt_of_mem e.property
    have h2 : sizeOf (undefToNull e.val) ≤ sizeOf e.val := by
      cases e.val <;> simp [undefToNull]
    simp only [JSValue.array.sizeOf_spec]
    omega
  · have h1 := List.sizeOf_lt_of_mem (List.mem_of_mem_filter e.property)
    have h2 : sizeOf e.val.2 < sizeOf e.val := by
      obtain ⟨k, v⟩ := e.val
      simp
    simp only [JSValue.object.sizeOf_spec]
    omega

/-- The processValue function of src/json/operations/build.ts: a pre-built
SQL fragment passes through untouched; an array compiles to
jsonb_build_array over the processed elements (undefined elements become
null); an object compiles to jsonb_build_object over its entries after
dropping every entry whose value is undefined, each key inlined as a quoted
literal; any other value becomes one bound parameter holding its JSON text,
cast to jsonb. -/
def processValue : JSValue → Frag
  | JSValue.sqlFrag f => f
  | JSValue.array xs =>
      lit ("jsonb_build_array(")
        ++ joinSep (lit (",")) (xs.attach.map (fun e => processValue (undefToNull e.val)))
        ++ lit (")")
  | JSValue.object fs =>
      lit ("jsonb_build_object(")
        ++ joinSep (lit (","))
            (((fs.filter (fun e => !(isUndef e.2))).attach).map
              (fun e => inlineStr e.val.1 ++ lit (", ") ++ processValue e.val.2))
        ++ lit (")")
  | v => [Chunk.par (jsonStringify v)] ++ lit ("::jsonb")
termination_by v => sizeOf v
decreasing_by
  · have h1 := List.sizeOf_lt_of_mem e.property
    have h2 : sizeOf (undefToNull e.val) ≤ sizeOf e.val := by
      cases e.val <;> simp [undefToNull]
    simp only [JSValue.array.sizeOf_spec]
    omega
  · have h1 := List.sizeOf_lt_of_mem (List.mem_of_mem_filter e.property)
    have h2 : sizeOf e.val.2 < sizeOf e.val := by
      obtain ⟨k, v⟩ := e.val
      simp
    simp only [JSValue.object.sizeOf_spec]
    omega

/-- The jsonBuild function of src/json/operations/build.ts. -/
def jsonBuild (value : JSValue) : Frag := processValue value

/-- The normalizeNullish helper of src/json/common.ts: coalesces an SQL-null
value to the JSON null literal. -/
def normalizeNullish (value : Frag) : Frag :=
  lit ("coalesce(") ++ value ++ lit (", \x27null\x27::jsonb)")

/-- The jsonCoalesce function of src/json/coalesce.ts: substitutes the given
value when the normalized source is JSON null, by a json_query filter whose
empty branch supplies the default. -/
def jsonCoalesce (source value : Frag) : Frag :=
  lit ("json_query(") ++ normalizeNullish source
    ++ lit (", \x27strict $ ? (@ != null)\x27 default ") ++ value
    ++ lit (" on empty)::jsonb")

/-- The path-segment argument list built by access.ts buildPathArgs and by
the path arrays of set.ts: every segment inlined as a quoted literal, joined
with commas. In access.ts the segments are interpolated as parameters and
inlined by the inlineParams call on the enclosing template; in set.ts each
segment is inlined individually; both produce these chunks. -/
def inlinedPathArgs (path : List String) : Frag :=
  joinSep (lit (",")) (path.map inlineStr)

/-- The buildPath function of src/json/access.ts: the empty path
short-circuits to the source fragment itself, otherwise one
jsonb_extract_path call over the source with the whole path list. -/
def buildPath (source : Frag) (path : List String) : Frag :=
  if path.isEmpty then source
  else lit ("jsonb_extract_path(") ++ source ++ lit (", ") ++ inlinedPathArgs path ++ lit (")")

/-- The buildValue function of src/json/access.ts. The property argument is
never passed by createProxy, so the second branch is dead code kept for
faithfulness. Note the absence of a root short-circuit: an empty path still
produces a jsonb_extract_path_text call with an empty argument tail. -/
def buildValue (source : Frag) (path : List String) (property : Option String) : Frag :=
  match property with
  | none =>
      lit ("jsonb_extract_path_text(") ++ source ++ lit (", ") ++ inlinedPathArgs path ++ lit (")")
  | some prop =>
      lit ("jsonb_extract_path_text(") ++ buildPath source path ++ lit (", ")
        ++ inlinedPathArgs path ++ lit (", ") ++ inlineStr prop ++ lit (")")

/-- An accessor node of src/json/access.ts: a Source fragment with the
accumulated path. The proxy of createProxy carries exactly this state. -/
structure Accessor where
  source : Frag
  path : List String
deriving DecidableEq, Repr

/-- The jsonAccess entry point: a root accessor with the empty path. -/
def jsonAccess (source : Frag) : Accessor := Accessor.mk source []

/-- Navigation of a member name on an accessor: createValue appends the
property to the path and re-creates the proxy. -/
def accessorNav (a : Accessor) (property : String) : Accessor :=
  Accessor.mk a.source (a.path ++ [property])

/-- Navigation along a whole list of member names, one step at a time. -/
def accessorNavAll (a : Accessor) (path : List String) : Accessor :=
  path.foldl accessorNav a

/-- The terminal read of the accessor written accessor.$path in the library:
typed structural extraction. -/
def accessorPathFrag (a : Accessor) : Frag := buildPath a.source a.path

/-- The terminal read of the accessor written accessor.$value in the
library: text extraction. -/
def accessorValueFrag (a : Accessor) : Frag := buildValue a.source a.path none

/-- The message of the error raised by buildSet and buildDefault of
src/json/set.ts when called with the empty path. -/
def rootErrorMessage : String := "Cannot set default value at root level"

/-- The buildSet function of src/json/set.ts: compiles the terminal $set
call into one jsonb_set over the source, with the whole path as an inlined
text-array literal, the built value, and the inlined createMissing flag.
Raises at the root (empty path), modelled as Except.error. -/
def buildSet (source : Frag) (path : List String) (value : JSValue) (createMissing : Bool) :
    Except String Frag :=
  let setValueSQL := jsonBuild value
  if path.isEmpty then Except.error rootErrorMessage
  else
    let pathArray := lit ("array[") ++ inlinedPathArgs path ++ lit ("]::text[]")
    Except.ok (lit ("jsonb_set(") ++ source ++ lit (", ") ++ pathArray ++ lit (", ")
      ++ setValueSQL ++ lit (", ") ++ inlineBool createMissing ++ lit (")"))

/-- A setter node of src/json/set.ts: the Source bound by the enclosing
_jsonSet call together with the accumulated path. -/
structure Setter where
  source : Frag
  path : List String
deriving DecidableEq, Repr

/-- The buildDefault function of src/json/set.ts: synthesizes a new Source
equal to jsonb_set(source, path, RepairExpr, createMissing) where RepairExpr
coalesces the structural extraction of the source at the path with the built
default value, and returns a new setter rooted at that Source whose path is
reset to the same path (the defPath argument of the inner _jsonSet call).
Raises at the root (empty path), modelled as Except.error. -/
def buildDefault (source : Frag) (path : List String) (value : JSValue) (createMissing : Bool) :
    Except String Setter :=
  let defaultValueSQL := jsonBuild value
  if path.isEmpty then Except.error rootErrorMessage
  else
    let pathArgs := inlinedPathArgs path
    let pathArray := lit ("array[") ++ pathArgs ++ lit ("]::text[]")
    Except.ok (Setter.mk
      (lit ("jsonb_set(") ++ source ++ lit (", ") ++ pathArray ++ lit (", ")
        ++ jsonCoalesce (lit ("jsonb_extract_path(") ++ source ++ lit (", ") ++ pathArgs ++ lit (")"))
            defaultValueSQL
        ++ lit (", ") ++ inlineBool createMissing ++ lit (")"))
      path)

/-- The jsonSet entry point: a root setter with the empty path. -/
def jsonSet (source : Frag) : Setter := Setter.mk source []

/-- Navigation of a member name on a setter: createValue appends the
property to the path and re-creates the proxy. -/
def setterNav (st : Setter) (property : String) : Setter :=
  Setter.mk st.source (st.path ++ [property])

/-- Navigation along a whole list of member names, one step at a time. -/
def setterNavAll (st : Setter) (path : List String) : Setter :=
  path.foldl setterNav st

/-- The terminal write of the setter written node.$set(value, createMissing)
in the library. -/
def setterSet (st : Setter) (value : JSValue) (createMissing : Bool) : Except String Frag :=
  buildSet st.source st.path value createMissing

/-- The default-initialization operator written node.$default(value,
createMissing) in the library. -/
def setterDefault (st : Setter) (value : JSValue) (createMissing : Bool) : Except String Setter :=
  buildDefault st.source st.path value createMissing

/-- The jsonSetPipe function of src/json/set.ts: reduces the step functions
left to right, starting from the null-normalized source, rooting a fresh
setter on each intermediate result. -/
def jsonSetPipe (source : Frag) (args : List (Setter → Frag)) : Frag :=
  args.foldl (fun acc fn => fn (jsonSet acc)) (normalizeNullish source)

/-- The jsonMerge function of src/json/merge.ts: the native structural-merge
operator applied to the two operands, each normalized through
normalizeNullish. -/
def jsonMerge (left right : Frag) : Frag :=
  normalizeNullish left ++ lit (" || ") ++ normalizeNullish right

/-- The valueOrEmptyArray helper of the array operators: coalesces the
target to the empty-array literal through jsonCoalesce. -/
def valueOrEmptyArray (value : Frag) : Frag :=
  jsonCoalesce value (lit ("\x27[]\x27::jsonb"))

/-- The per-value treatment shared by jsonArrayPush and jsonArraySet: a
value that is already an SQL fragment passes through (the isSQLWrapper
test), any other value becomes one bound parameter holding its JSON text,
cast to jsonb. -/
def stringifyOrFrag : JSValue → Frag
  | JSValue.sqlFrag f => f
  | v => [Chunk.par (jsonStringify v)] ++ lit ("::jsonb")

/-- The jsonArrayPush function: native concatenation of the coalesced
target with a freshly built array of the pushed values. -/
def jsonArrayPush (target : Frag) (values : List JSValue) : Frag :=
  let vs := values.map stringifyOrFrag
  let value := lit ("jsonb_build_array(") ++ joinSep (lit (", ")) vs ++ lit (")")
  valueOrEmptyArray target ++ lit (" || ") ++ value

/-- The jsonArraySet function: jsonb_set over the coalesced target with a
single inlined numeric path segment. -/
def jsonArraySet (target : Frag) (index : Int) (value : JSValue) : Frag :=
  lit ("jsonb_set(") ++ valueOrEmptyArray target ++ lit (", \x27\x7b") ++ inlineInt index
    ++ lit ("\x7d\x27, ") ++ stringifyOrFrag value ++ lit (")")

/-- The jsonArrayDelete function: the native element-removal operator over
the coalesced target with the inlined index. -/
def jsonArrayDelete (target : Frag) (index : Int) : Frag :=
  valueOrEmptyArray target ++ lit (" - ") ++ inlineInt index

/-- A PostgreSQL jsonb value, the run-time domain of the native document
functions the engine compiles calls to (the external collaborator of the
spec). -/
inductive Json where
  | null : Json
  | boolean : Bool → Json
  | number : Int → Json
  | string : String → Json
  | arr : List Json → Json
  | obj : List (String × Json) → Json
deriving Repr

/-- An SQL-level value of type jsonb: none is SQL NULL, some j is the jsonb
value j (of which Json.null, the JSON null literal, is one). -/
abbrev SqlJsonb := Option Json

/-- Whether a jsonb value is an array. -/
def Json.isArr : Json → Bool
  | Json.arr _ => true
  | _ => false

/-- Run-time semantics of coalesce(x, the JSON null literal), the native
null-coalesce the engine compiles normalizeNullish to: SQL NULL becomes the
JSON null literal, every other value passes through. -/
def coalesceJsonNull (x : SqlJsonb) : SqlJsonb :=
  some (x.getD Json.null)

/-- Run-time semantics of the fragment compiled by jsonCoalesce: the source
is first normalized (SQL NULL to JSON null), then the strict filter that
rejects JSON null is empty exactly on JSON null, in which case the default
clause supplies the second argument. -/
def jsonCoalesceSem (source : SqlJsonb) (dflt : Json) : Json :=
  match source with
  | none => dflt
  | some Json.null => dflt
  | some v => v

/-- Run-time semantics of the fragment compiled by valueOrEmptyArray. -/
def valueOrEmptyArraySem (target : SqlJsonb) : Json :=
  jsonCoalesceSem target (Json.arr [])

/-- Right-biased union of object fields, the object case of the native
structural-merge operator: fields of the left operand whose key also occurs
on the right are dropped, the right operand wins. -/
def objMergeRightWins (fs gs : List (String × Json)) : List (String × Json) :=
  fs.filter (fun e => !(gs.any (fun g => g.1 == e.1))) ++ gs

/-- Run-time semantics of the native structural-merge operator on two jsonb
values (never SQL NULL on either side, which the engine guarantees by
normalizing): array and array concatenate; array and non-array append or
prepend the non-array; object and object merge with the right operand
winning; every other combination yields the two-element array. -/
def pgConcat : Json → Json → Json
  | Json.arr xs, Json.arr ys => Json.arr (xs ++ ys)
  | Json.arr xs, y => Json.arr (xs ++ [y])
  | x, Json.arr ys => Json.arr (x :: ys)
  | Json.obj fs, Json.obj gs => Json.obj (objMergeRightWins fs gs)
  | x, y => Json.arr [x, y]

/-- Element replacement of the native jsonb_set on an array with a single
numeric segment and create_missing true: a negative index counts from the
end; an index resolving before the start prepends; an index resolving past
the end appends (the store appends instead of padding); otherwise the
element is replaced in place. -/
def setIdx (xs : List Json) (i : Int) (v : Json) : List Json :=
  let j : Int := if i < 0 then (xs.length : Int) + i else i
  if j < 0 then v :: xs
  else if j.toNat < xs.length then xs.set j.toNat v
  else xs ++ [v]

/-- Element removal of the native integer-minus operator on an array: a
negative index counts from the end, an out-of-range index is a no-op. -/
def delIdx (xs : List Json) (i : Int) : List Json :=
  let j : Int := if i < 0 then (xs.length : Int) + i else i
  if 0 ≤ j ∧ j.toNat < xs.length then xs.eraseIdx j.toNat else xs

/-- Native jsonb_set with one numeric path segment, on the top-level value:
only the array case is exercised by the array operators. -/
def pgJsonbSetTop (base : Json) (i : Int) (v : Json) : Json :=
  match base with
  | Json.arr xs => Json.arr (setIdx xs i v)
  | b => b

/-- Native integer-minus on the top-level value: only the array case is
exercised by the array operators. -/
def pgMinusIdx (base : Json) (i : Int) : Json :=
  match base with
  | Json.arr xs => Json.arr (delIdx xs i)
  | b => b

/-- Run-time value of the fragment compiled by jsonMerge, given the values
of the two operand fragments: both sides normalized, then the native
structural-merge operator. -/
def jsonMergeSem (left right : SqlJsonb) : SqlJsonb :=
  match coalesceJsonNull left, coalesceJsonNull right with
  | some a, some b => some (pgConcat a b)
  | _, _ => none

/-- Run-time value of the fragment compiled by jsonArrayPush, given the
value of the target fragment and the values of the pushed elements. -/
def jsonArrayPushSem (target : SqlJsonb) (values : List Json) : Json :=
  pgConcat (valueOrEmptyArraySem target) (Json.arr values)

/-- Run-time value of the fragment compiled by jsonArraySet. -/
def jsonArraySetSem (target : SqlJsonb) (index : Int) (value : Json) : Json :=
  pgJsonbSetTop (valueOrEmptyArraySem target) index value

/-- Run-time value of the fragment compiled by jsonArrayDelete. -/
def jsonArrayDeleteSem (target : SqlJsonb) (index : Int) : Json :=
  pgMinusIdx (valueOrEmptyArraySem target) index

/-- Claim-side description of the path array literal of set.ts. -/
def specPathArray (path : List String) : Frag :=
  lit ("array[") ++ inlinedPathArgs path ++ lit ("]::text[]")

/-- Claim-side description of the structural extraction of the source at
the path, as embedded by buildDefault. -/
def specExtract (source : Frag) (path : List String) : Frag :=
  lit ("jsonb_extract_path(") ++ source ++ lit (", ") ++ inlinedPathArgs path ++ lit (")")

/-- Claim-side description of the fragment a terminal $set compiles to:
jsonb_set(source, path, compiled value, createMissing). -/
def specSetFragment (source : Frag) (path : List String) (value : JSValue)
    (createMissing : Bool) : Frag :=
  lit ("jsonb_set(") ++ source ++ lit (", ") ++ specPathArray path ++ lit (", ")
    ++ jsonBuild value ++ lit (", ") ++ inlineBool createMissing ++ lit (")")

/-- Claim-side description of the Source synthesized by $default:
jsonb_set(source, path, RepairExpr, createMissing) where RepairExpr
coalesces the extraction of the source at the path with the compiled
default. -/
def specSynthesizedSource (source : Frag) (path : List String) (value : JSValue)
    (createMissing : Bool) : Frag :=
  lit ("jsonb_set(") ++ source ++ lit (", ") ++ specPathArray path ++ lit (", ")
    ++ jsonCoalesce (specExtract source path) (jsonBuild value)
    ++ lit (", ") ++ inlineBool createMissing ++ lit (")")

/-- Claim-side description of the pipelining reduction, following the words
of the spec: the accumulator starts as the normalized source and each step
receives a fresh setter rooted at the previous accumulator. -/
def specPipeReduction (steps : List (Setter → Frag)) (acc : Frag) : Frag :=
  match steps with
  | [] => acc
  | stp :: rest => specPipeReduction rest (stp (jsonSet acc))

/-- The chain a.$default(d1).b.$default(d2).c.$set(x) of the claim about
nested default composition, evaluated by the engine. -/
def defaultChain (source : Frag) (a b c : String) (d1 d2 x : JSValue) : Except String Frag := do
  let st1 ← setterDefault (setterNav (jsonSet source) a) d1 true
  let st2 ← setterDefault (setterNav st1 b) d2 true
  setterSet (setterNav st2 c) x true

theorem countAtom_append (n : Nat) (f g : Frag) :
    countAtom n (f ++ g) = countAtom n f + countAtom n g := by
  induction f with
  | nil => simp [countAtom]
  | cons c rest ih => cases c <;> simp [countAtom, ih] <;> omega

theorem countTxt_append (x : String) (f g : Frag) :
    countTxt x (f ++ g) = countTxt x f + countTxt x g := by
  induction f with
  | nil => simp [countTxt]
  | cons c rest ih => cases c <;> simp [countTxt, ih] <;> omega

theorem countAtom_inlinedPathArgs (n : Nat) (p : List String) :
    countAtom n (inlinedPathArgs p) = 0 := by
  induction p with
  | nil => rfl
  | cons s t ih =>
    cases t with
    | nil => rfl
    | cons s2 t2 =>
      show countAtom n (inlineStr s ++ lit (",") ++ inlinedPathArgs (s2 :: t2)) = 0
      simp [countAtom_append, countAtom, inlineStr, lit, ih]

theorem quote_ne_of_front (s x : String) (h : x.data.head? ≠ some ('\x27')) :
    ("\x27" ++ s ++ "\x27") ≠ x := by
  intro he
  apply h
  rw [← he, String.data_append, String.data_append]
  have hq : ("\x27" : String).data = ['\x27'] := rfl
  rw [hq]
  rfl

theorem countTxt_inlineStr (x : String) (s : String) (h : x.data.head? ≠ some ('\x27')) :
    countTxt x (inlineStr s) = 0 := by
  simp [inlineStr, lit, countTxt]
  intro he
  exact absurd he (quote_ne_of_front s x h)

theorem countTxt_inlinedPathArgs (x : String) (p : List String)
    (h : x.data.head? ≠ some ('\x27')) (hc : x ≠ ",") :
    countTxt x (inlinedPathArgs p) = 0 := by
  induction p with
  | nil => rfl
  | cons s t ih =>
    cases t with
    | nil =>
      show countTxt x (inlineStr s) = 0
      exact countTxt_inlineStr x s h
    | cons s2 t2 =>
      show countTxt x (inlineStr s ++ lit (",") ++ inlinedPathArgs (s2 :: t2)) = 0
      rw [countTxt_append, countTxt_append, countTxt_inlineStr x s h, ih]
      simp [lit, countTxt]
      intro he
      exact absurd he.symm hc

theorem setterNavAll_mk (src : Frag) (pre p : List String) :
    setterNavAll (Setter.mk src pre) p = Setter.mk src (pre ++ p) := by
  induction p generalizing pre with
  | nil => simp [setterNavAll]
  | cons q t ih =>
    have h1 : setterNavAll (Setter.mk src pre) (q :: t)
        = setterNavAll (Setter.mk src (pre ++ [q])) t := rfl
    rw [h1, ih]
    simp

theorem accessorNavAll_mk (src : Frag) (pre p : List String) :
    accessorNavAll (Accessor.mk src pre) p = Accessor.mk src (pre ++ p) := by
  induction p generalizing pre with
  | nil => simp [accessorNavAll]
  | cons q t ih =>
    have h1 : accessorNavAll (Accessor.mk src pre) (q :: t)
        = accessorNavAll (Accessor.mk src (pre ++ [q])) t := rfl
    rw [h1, ih]
    simp

theorem render_append (env : Nat → String) (f g : Frag) :
    render env (f ++ g) = render env f ++ render env g := by
  induction f with
  | nil => simp [render]
  | cons c rest ih => cases c <;> simp [render, ih, String.append_assoc]

theorem render_lit (env : Nat → String) (x : String) : render env (lit x) = x := by
  simp [render, lit]

theorem processValue_object (fs : List (String × JSValue)) :
    processValue (JSValue.object fs)
      = lit ("jsonb_build_object(")
        ++ joinSep (lit (","))
            ((fs.filter (fun e => !(isUndef e.2))).map
              (fun e => inlineStr e.1 ++ lit (", ") ++ processValue e.2))
        ++ lit (")") := by
  rw [processValue]
  rw [List.attach_map_val (fs.filter (fun e => !(isUndef e.2)))
    (fun e => inlineStr e.1 ++ lit (", ") ++ processValue e.2)]

/-- C4: for every path, the accessor navigated along the path and read via
the terminal $path member compiles to exactly one jsonb_extract_path call
over the original source listing all path segments in order, never one
nested call per segment, and for the empty path the $path read equals the
source fragment itself with no wrapping call. -/
theorem accessor_path_single_extract_call (n : Nat) (q : String) (p : List String) :
    accessorPathFrag (accessorNavAll (jsonAccess [Chunk.atom n]) (q :: p))
        = lit ("jsonb_extract_path(") ++ [Chunk.atom n] ++ lit (", ")
            ++ inlinedPathArgs (q :: p) ++ lit (")")
    ∧ countTxt ("jsonb_extract_path(")
        (accessorPathFrag (accessorNavAll (jsonAccess [Chunk.atom n]) (q :: p))) = 1
    ∧ accessorPathFrag (jsonAccess [Chunk.atom n]) = [Chunk.atom n] := by
  have hnav : accessorNavAll (jsonAccess [Chunk.atom n]) (q :: p)
      = Accessor.mk [Chunk.atom n] (q :: p) := by
    rw [show jsonAccess [Chunk.atom n] = Accessor.mk [Chunk.atom n] [] from rfl,
      accessorNavAll_mk]
    simp
  have h1 : accessorPathFrag (accessorNavAll (jsonAccess [Chunk.atom n]) (q :: p))
      = lit ("jsonb_extract_path(") ++ [Chunk.atom n] ++ lit (", ")
          ++ inlinedPathArgs (q :: p) ++ lit (")") := by
    rw [hnav]
    simp [accessorPathFrag, buildPath]
  refine ⟨h1, ?_, rfl⟩
  rw [h1]
  rw [countTxt_append, countTxt_append, countTxt_append, countTxt_append]
  rw [countTxt_inlinedPathArgs ("jsonb_extract_path(") (q :: p) (by decide) (by decide)]
  simp [countTxt, lit]

/-- C2 (amended): for every path built by navigation steps, the fragment
compiled by a terminal read ($path or $value) embeds the original Source
exactly once; the fragment compiled by a terminal write ($set) embeds it
exactly once plus any occurrences inside the compiled value; but the Source
synthesized by a terminal default ($default) embeds the original Source
exactly twice (once as the write target and once under the extraction),
plus any occurrences inside the compiled default value. -/
theorem source_embedding_counts (n : Nat) (q : String) (p : List String)
    (v : JSValue) (cm : Bool) :
    countAtom n (accessorPathFrag (accessorNavAll (jsonAccess [Chunk.atom n]) (q :: p))) = 1
    ∧ countAtom n (accessorValueFrag (accessorNavAll (jsonAccess [Chunk.atom n]) (q :: p))) = 1
    ∧ (setterSet (setterNavAll (jsonSet [Chunk.atom n]) (q :: p)) v cm).map
        (fun f => countAtom n f) = Except.ok (1 + countAtom n (jsonBuild v))
    ∧ (setterDefault (setterNavAll (jsonSet [Chunk.atom n]) (q :: p)) v cm).map
        (fun st => countAtom n st.source) = Except.ok (2 + countAtom n (jsonBuild v)) := by
  have hnav : accessorNavAll (jsonAccess [Chunk.atom n]) (q :: p)
      = Accessor.mk [Chunk.atom n] (q :: p) := by
    rw [show jsonAccess [Chunk.atom n] = Accessor.mk [Chunk.atom n] [] from rfl,
      accessorNavAll_mk]
    simp
  have hnavs : setterNavAll (jsonSet [Chunk.atom n]) (q :: p)
      = Setter.mk [Chunk.atom n] (q :: p) := by
    rw [show jsonSet [Chunk.atom n] = Setter.mk [Chunk.atom n] [] from rfl,
      setterNavAll_mk]
    simp
  refine ⟨?_, ?_, ?_, ?_⟩
  · rw [hnav]
    simp [accessorPathFrag, buildPath, countAtom_append, countAtom_inlinedPathArgs,
      countAtom, lit]
  · rw [hnav]
    simp [accessorValueFrag, buildValue, countAtom_append, countAtom_inlinedPathArgs,
      countAtom, lit]
  · rw [hnavs]
    simp [setterSet, buildSet, Except.map, countAtom_append, countAtom_inlinedPathArgs,
      countAtom, lit, inlineBool]
  · rw [hnavs]
    simp [setterDefault, buildDefault, Except.map, countAtom_append,
      countAtom_inlinedPathArgs, countAtom, lit, inlineBool, jsonCoalesce,
      normalizeNullish] <;> omega

/-- C2 counterexample: the claim as stated is false for the default
operation; at the concrete path a over an abstract source, the Source
synthesized by $default embeds the original Source twice, not once. -/
theorem default_embeds_source_twice :
    (buildDefault [Chunk.atom 0] (["a"]) JSValue.null true).map
        (fun st => countAtom 0 st.source) = Except.ok 2
    ∧ (Except.ok 2 : Except String Nat) ≠ Except.ok 1 := by
  constructor
  · simp [buildDefault, Except.map, countAtom_append, countAtom, jsonCoalesce,
      normalizeNullish, lit, inlinedPathArgs, joinSep, inlineStr, inlineBool,
      jsonBuild, processValue, jsonStringify]
  · simp

/-- C3: for every non-empty path, the setter navigated to the path and
called as $set(value, createMissing) compiles to jsonb_set over the
original source, the path as an inlined text-array literal, the compiled
value, and the inlined createMissing flag (true for the default call,
false when passed false); and compiling a value that is already an SQL
fragment passes it through unchanged, any other value runs the value
builder. -/
theorem set_compiles_to_jsonb_set (src : Frag) (q : String) (p : List String)
    (v : JSValue) (cm : Bool) (f : Frag) :
    setterSet (setterNavAll (jsonSet src) (q :: p)) v cm
        = Except.ok (specSetFragment src (q :: p) v cm)
    ∧ jsonBuild (JSValue.sqlFrag f) = f := by
  have hnavs : setterNavAll (jsonSet src) (q :: p) = Setter.mk src (q :: p) := by
    rw [show jsonSet src = Setter.mk src [] from rfl, setterNavAll_mk]
    simp
  refine ⟨?_, by simp [jsonBuild, processValue]⟩
  rw [hnavs]
  rfl

/-- C1: for every nullable node at a non-empty path, $default(value,
createMissing) returns a new setter whose Source is the synthesized
fragment jsonb_set(Source, path, RepairExpr, createMissing), where
RepairExpr coalesces the extraction of the Source at the path with the
compiled default, and whose path is reset to the same path, not extended;
consequently the chain a.$default(d1).b.$default(d2).c.$set(x) compiles to
nested jsonb_set calls, each wrapping the Source synthesized by the
previous step. -/
theorem default_synthesizes_nested_sets (src : Frag) (q : String) (p : List String)
    (v : JSValue) (cm : Bool) (a b c : String) (d1 d2 x : JSValue) :
    setterDefault (setterNavAll (jsonSet src) (q :: p)) v cm
        = Except.ok (Setter.mk (specSynthesizedSource src (q :: p) v cm) (q :: p))
    ∧ defaultChain src a b c d1 d2 x
        = Except.ok (specSetFragment
            (specSynthesizedSource (specSynthesizedSource src ([a]) d1 true) ([a, b]) d2 true)
            ([a, b, c]) x true) := by
  have hnavs : setterNavAll (jsonSet src) (q :: p) = Setter.mk src (q :: p) := by
    rw [show jsonSet src = Setter.mk src [] from rfl, setterNavAll_mk]
    simp
  refine ⟨?_, rfl⟩
  rw [hnavs]
  rfl

/-- C5 (code divergence): for the empty root path the accessor terminal
$value does not short-circuit to the source; buildValue still wraps the
source in a jsonb_extract_path_text call with an empty segment tail,
rendering as a malformed call with a dangling comma, not as the identity
fragment. -/
theorem root_value_is_extract_call :
    accessorValueFrag (jsonAccess [Chunk.atom 0])
        = [Chunk.txt ("jsonb_extract_path_text("), Chunk.atom 0, Chunk.txt (", "), Chunk.txt (")")]
    ∧ accessorValueFrag (jsonAccess [Chunk.atom 0]) ≠ [Chunk.atom 0]
    ∧ render (fun _ => "src") (accessorValueFrag (jsonAccess [Chunk.atom 0]))
        = "jsonb_extract_path_text(src, )" := by
  refine ⟨rfl, by decide, by decide⟩

/-- C6: for every source and non-empty list of step functions, jsonSetPipe
equals the left-to-right reduction whose initial accumulator is the
null-normalized source and whose next accumulator applies the next step to
a fresh setter rooted at the previous accumulator. -/
theorem pipe_is_left_fold (src : Frag) (stp : Setter → Frag) (rest : List (Setter → Frag)) :
    jsonSetPipe src (stp :: rest) = specPipeReduction (stp :: rest) (normalizeNullish src) := by
  have h : ∀ (steps : List (Setter → Frag)) (acc : Frag),
      steps.foldl (fun acc fn => fn (jsonSet acc)) acc = specPipeReduction steps acc := by
    intro steps
    induction steps with
    | nil => intro acc; rfl
    | cons s t ih => intro acc; exact ih (s (jsonSet acc))
  exact h (stp :: rest) (normalizeNullish src)

/-- C7: jsonMerge compiles to the native structural-merge operator applied
to both operands after each has been null-normalized by coalescing with the
JSON null literal, so at run time the operator never receives an SQL-null
operand. -/
theorem merge_normalizes_both_operands (l r : Frag) (env : Nat → String) (lv rv : SqlJsonb) :
    jsonMerge l r = normalizeNullish l ++ lit (" || ") ++ normalizeNullish r
    ∧ render env (jsonMerge l r)
        = render env (normalizeNullish l) ++ " || " ++ render env (normalizeNullish r)
    ∧ render env (normalizeNullish l) = "coalesce(" ++ render env l ++ ", \x27null\x27::jsonb)"
    ∧ coalesceJsonNull lv ≠ none
    ∧ jsonMergeSem lv rv = some (pgConcat (lv.getD Json.null) (rv.getD Json.null)) := by
  refine ⟨rfl, ?_, ?_, by simp [coalesceJsonNull], by simp [jsonMergeSem, coalesceJsonNull]⟩
  · show render env (normalizeNullish l ++ lit (" || ") ++ normalizeNullish r) = _
    simp [render_append, render_lit, String.append_assoc]
  · simp [render_append, normalizeNullish, render_lit, String.append_assoc]

/-- C8: each of the three array operators embeds its target only through
valueOrEmptyArray, the coalesce-to-empty-array wrapper; at run time that
wrapper maps an SQL-null or JSON-null target to the empty array and passes
an array target through, so every operator applied to a null-or-array
target yields an array rather than propagating null. -/
theorem array_ops_total_over_null (tgt : Frag) (i : Int) (v : JSValue)
    (vs : List JSValue) (t : SqlJsonb) (vj : Json) (vsj : List Json)
    (ht : t = none ∨ t = some Json.null ∨ ∃ xs, t = some (Json.arr xs)) :
    jsonArrayPush tgt vs
        = valueOrEmptyArray tgt ++ lit (" || ")
          ++ (lit ("jsonb_build_array(") ++ joinSep (lit (", ")) (vs.map stringifyOrFrag) ++ lit (")"))
    ∧ jsonArraySet tgt i v
        = lit ("jsonb_set(") ++ valueOrEmptyArray tgt ++ lit (", \x27\x7b") ++ inlineInt i
            ++ lit ("\x7d\x27, ") ++ stringifyOrFrag v ++ lit (")")
    ∧ jsonArrayDelete tgt i = valueOrEmptyArray tgt ++ lit (" - ") ++ inlineInt i
    ∧ valueOrEmptyArraySem none = Json.arr []
    ∧ valueOrEmptyArraySem (some Json.null) = Json.arr []
    ∧ (jsonArrayPushSem t vsj).isArr = true
    ∧ (jsonArraySetSem t i vj).isArr = true
    ∧ (jsonArrayDeleteSem t i).isArr = true := by
  refine ⟨rfl, rfl, rfl, rfl, rfl, ?_, ?_, ?_⟩ <;>
    rcases ht with h | h | ⟨xs, h⟩ <;> subst h <;>
      simp [jsonArrayPushSem, jsonArraySetSem, jsonArrayDeleteSem,
        valueOrEmptyArraySem, jsonCoalesceSem, pgConcat, pgJsonbSetTop, pgMinusIdx,
        Json.isArr]

/-- C8 witness: the theorem applied at a concrete SQL-null target and
concrete values. -/
theorem array_ops_total_over_null_witness :
    ((none : SqlJsonb) = none ∨ (none : SqlJsonb) = some Json.null
      ∨ ∃ xs, (none : SqlJsonb) = some (Json.arr xs))
    ∧ (jsonArrayPush [Chunk.atom 0] ([JSValue.number 7])
        = valueOrEmptyArray [Chunk.atom 0] ++ lit (" || ")
          ++ (lit ("jsonb_build_array(")
              ++ joinSep (lit (", ")) (([JSValue.number 7]).map stringifyOrFrag) ++ lit (")"))
    ∧ jsonArraySet [Chunk.atom 0] 5 (JSValue.number 7)
        = lit ("jsonb_set(") ++ valueOrEmptyArray [Chunk.atom 0] ++ lit (", \x27\x7b") ++ inlineInt 5
            ++ lit ("\x7d\x27, ") ++ stringifyOrFrag (JSValue.number 7) ++ lit (")")
    ∧ jsonArrayDelete [Chunk.atom 0] 5
        = valueOrEmptyArray [Chunk.atom 0] ++ lit (" - ") ++ inlineInt 5
    ∧ valueOrEmptyArraySem none = Json.arr []
    ∧ valueOrEmptyArraySem (some Json.null) = Json.arr []
    ∧ (jsonArrayPushSem none ([Json.number 7])).isArr = true
    ∧ (jsonArraySetSem none 5 (Json.number 7)).isArr = true
    ∧ (jsonArrayDeleteSem none 5).isArr = true) :=
  ⟨Or.inl rfl,
    array_ops_total_over_null [Chunk.atom 0] 5 (JSValue.number 7) ([JSValue.number 7])
      none (Json.number 7) ([Json.number 7]) (Or.inl rfl)⟩

/-- C9 counterexample: invoking the terminal $set or $default on the root
setter raises a run-time error, so not every shape violation is rejected
only at compile time. -/
theorem root_set_raises :
    setterSet (jsonSet [Chunk.atom 0]) (JSValue.number 1) true
        = Except.error rootErrorMessage
    ∧ setterDefault (jsonSet [Chunk.atom 0]) (JSValue.number 1) true
        = Except.error rootErrorMessage := ⟨rfl, rfl⟩

/-- C9 (amended): nullability-based shape violations are rejected only at
compile time and the terminal operations perform no run-time shape check at
any non-empty path, succeeding unconditionally regardless of the declared
Shape; but $set and $default invoked at the root (empty) path raise the
run-time error Cannot set default value at root level. -/
theorem runtime_shape_check_only_at_root (src : Frag) (q : String) (p : List String)
    (v : JSValue) (cm : Bool) :
    setterSet (Setter.mk src (q :: p)) v cm = Except.ok (specSetFragment src (q :: p) v cm)
    ∧ setterDefault (Setter.mk src (q :: p)) v cm
        = Except.ok (Setter.mk (specSynthesizedSource src (q :: p) v cm) (q :: p))
    ∧ setterSet (jsonSet src) v cm = Except.error rootErrorMessage
    ∧ setterDefault (jsonSet src) v cm = Except.error rootErrorMessage :=
  ⟨rfl, rfl, rfl, rfl⟩

/-- C10: in the value builder, an object entry whose value is the host
undefined sentinel is dropped entirely from the compiled
jsonb_build_object call, emitting neither its key nor a null entry, while
an entry whose value is null compiles to an explicit JSON-null entry. -/
theorem undefined_entries_dropped (k : String) (entries es : List (String × JSValue)) :
    processValue (JSValue.object ((k, JSValue.undef) :: entries))
        = processValue (JSValue.object entries)
    ∧ processValue (JSValue.object es)
        = processValue (JSValue.object (es.filter (fun e => !(isUndef e.2))))
    ∧ processValue (JSValue.object ([(k, JSValue.null)]))
        = lit ("jsonb_build_object(") ++ inlineStr k ++ lit (", ")
            ++ [Chunk.par ("null")] ++ lit ("::jsonb") ++ lit (")") := by
  have hidem : ∀ (l : List (String × JSValue)),
      (l.filter (fun e => !(isUndef e.2))).filter (fun e => !(isUndef e.2))
        = l.filter (fun e => !(isUndef e.2)) := by
    intro l
    induction l with
    | nil => rfl
    | cons e tl ih => cases hb : isUndef e.2 <;> simp [List.filter_cons, hb, ih]
  refine ⟨?_, ?_, ?_⟩
  · rw [processValue_object, processValue_object]
    simp [List.filter_cons, isUndef]
  · rw [processValue_object, processValue_object, hidem]
  · rw [processValue_object]
    simp [List.filter_cons, isUndef, joinSep, processValue, jsonStringify, lit]
